import Mathlib

/-!
Shallow embedding of the rust-ext resilience layer: the composable lazy
sequence generators from std-ext (exponential, saturating, reset) and the
websocket channel decorators from tokio-tungstenite-ext (heartbeat,
refreshing), together with proofs about the claims of the specification.

Machine integers (u64) are modelled as Nat with explicit saturation at
2^64 - 1 where the source uses saturating arithmetic.  Stateful Rust
iterators are modelled as explicit state-passing functions returning the
new state and the produced item.  Polling state machines are modelled as
step functions on explicit state records; time (read implicitly from the
tokio runtime in the source) is passed as an explicit clock value.
-/

namespace RustExt

/-- The result of a non-blocking poll, mirroring std task Poll. -/
inductive Poll (α : Type) where
  | ready (a : α)
  | pending
  deriving DecidableEq, Repr

/-- Websocket message, mirroring tungstenite Message
(Text / Binary / Ping / Pong / Close). -/
inductive Msg where
  | text (s : String)
  | binary (b : List Nat)
  | ping (b : List Nat)
  | pong (b : List Nat)
  | close
  deriving DecidableEq, Repr

/-- Opaque transport error, mirroring tungstenite Error. -/
structure WsError where
  code : Nat
  deriving DecidableEq, Repr

abbrev WsResult (α : Type) := Except WsError α

/-- A stream item: Option (Result Message Error), none meaning the stream
has terminated. -/
abbrev Item := Option (WsResult Msg)

/-! ## Generic stateful iterator

A Rust Iterator with state type σ and item type α is a function from the
state to the new state paired with an optional item. -/

structure Iter (σ α : Type) where
  next : σ → σ × Option α

/-- State after n calls to next. -/
def Iter.stateN (it : Iter σ α) (s : σ) : Nat → σ
  | 0 => s
  | n + 1 => it.stateN ((it.next s).1) n

/-- The item produced by the nth call to next (0-indexed). -/
def Iter.outN (it : Iter σ α) (s : σ) (n : Nat) : Option α :=
  (it.next (it.stateN s n)).2

theorem Iter.stateN_succ (it : Iter σ α) (s : σ) (n : Nat) :
    it.stateN s (n + 1) = it.stateN ((it.next s).1) n := rfl

theorem Iter.outN_succ (it : Iter σ α) (s : σ) (n : Nat) :
    it.outN s (n + 1) = it.outN ((it.next s).1) n := rfl

/-- Iterator over a list: produces the elements in order, then none
forever.  This represents an arbitrary finite sequence. -/
def listIter (α : Type) : Iter (List α) α :=
  ⟨fun s =>
    match s with
    | [] => ([], none)
    | a :: rest => (rest, some a)⟩

/-! ## Exponential (std-ext src iter exponential.rs)

The state is the u64 field current, kept as a Nat below 2^64.
next returns current; if current is greater than 2^63 it returns None
(leaving the state unchanged), otherwise it doubles current with
saturating multiplication. -/

def u64Max : Nat := 2 ^ 64 - 1

/-- u64 saturating multiplication. -/
def saturatingMul (a b : Nat) : Nat := min (a * b) u64Max

structure Exponential where
  current : Nat
  deriving DecidableEq, Repr

/-- Constructor: yields 1, 2, 4, 8, 16 and so on. -/
def exponential : Exponential := ⟨1⟩

/-- One call to Exponential::next, mirroring the source: take the current
value as the result; if current exceeds 9223372036854775808 return none;
otherwise double current (saturating) and return the old value. -/
def Exponential.next (e : Exponential) : Exponential × Option Nat :=
  let result := e.current
  if e.current > 9223372036854775808 then
    (e, none)
  else
    (⟨saturatingMul e.current 2⟩, some result)

def expIter : Iter Exponential Nat := ⟨Exponential.next⟩

/-! ## Saturating (std-ext src iter saturating.rs)

Wraps an inner iterator; remembers the last produced value; once the
inner iterator is exhausted it repeats that last value indefinitely. -/

structure Saturating (σ α : Type) where
  inner : σ
  last : Option α
  deriving DecidableEq, Repr

/-- Saturating::new: last starts out absent. -/
def Saturating.new (inner : σ) : Saturating σ α := ⟨inner, none⟩

/-- Saturating::next: delegate to the inner iterator; on some item record
it as last and yield it; on none yield the remembered last value. -/
def Saturating.next (it : Iter σ α) (s : Saturating σ α) :
    Saturating σ α × Option α :=
  match it.next s.inner with
  | (inner2, some item) => (⟨inner2, some item⟩, some item)
  | (inner2, none) => (⟨inner2, s.last⟩, s.last)

def satIter (it : Iter σ α) : Iter (Saturating σ α) α := ⟨Saturating.next it⟩

/-! ## Reset (std-ext src iter reset.rs)

Wraps an inner iterator together with a pristine copy of its initial
state, a reset delay and a deadline.  The clock capability of the source
(time.timestamp()) is modelled by passing the current timestamp to next
explicitly; durations and instants are Nats. -/

structure Reset (σ : Type) where
  inner : σ
  initialInner : σ
  resetDelay : Nat
  resetAt : Nat
  deriving DecidableEq, Repr

/-- Reset::new: keeps a pristine clone of the inner iterator and sets the
deadline to now plus the reset delay. -/
def Reset.new (inner : σ) (now resetDelay : Nat) : Reset σ :=
  { inner := inner
    initialInner := inner
    resetDelay := resetDelay
    resetAt := now + resetDelay }

/-- Reset::next: read the clock; if the deadline has passed, replace the
inner iterator by the pristine copy; always move the deadline to the
current time plus the reset delay; then delegate to the inner iterator. -/
def Reset.next (it : Iter σ α) (now : Nat) (r : Reset σ) :
    Reset σ × Option α :=
  let innerSel := if now ≥ r.resetAt then r.initialInner else r.inner
  let step := it.next innerSel
  ({ inner := step.1
     initialInner := r.initialInner
     resetDelay := r.resetDelay
     resetAt := now + r.resetDelay }, step.2)

/-! ## Timer primitives

tokio time interval: a periodic tick source.  Creating an interval makes
the first tick complete immediately; reset pushes the next tick to one
full period after the current instant; after a tick the next deadline is
one period after the previous deadline (tokio default missed-tick
behaviour).  Instants and periods are Nats; the current instant is passed
to poll explicitly. -/

structure Interval where
  period : Nat
  deadline : Nat
  deriving DecidableEq, Repr

/-- tokio time interval(period): the first tick completes immediately. -/
def Interval.new (now period : Nat) : Interval := ⟨period, now⟩

/-- Interval::reset: next tick one full period from now. -/
def Interval.reset (now : Nat) (i : Interval) : Interval :=
  ⟨i.period, now + i.period⟩

/-- Interval::poll_tick: ready when the deadline has been reached, in
which case the next deadline is one period after the old deadline. -/
def Interval.pollTick (now : Nat) (i : Interval) : Interval × Poll Unit :=
  if now ≥ i.deadline then (⟨i.period, i.deadline + i.period⟩, .ready ()) else (i, .pending)

/-- tokio time Sleep: completes once the deadline is reached. -/
structure Sleep where
  deadline : Nat
  deriving DecidableEq, Repr

def Sleep.poll (now : Nat) (s : Sleep) : Poll Unit :=
  if now ≥ s.deadline then .ready () else .pending

/-! ## Duplex channel capability

The wrapped channel S (a Stream of Result Message Error plus a Sink of
Message) is modelled by a state type σ together with the four polling
operations; each may advance the channel state even when pending. -/

structure ChanOps (σ : Type) where
  pollNext : σ → σ × Poll Item
  pollReady : σ → σ × Poll (WsResult Unit)
  startSend : σ → Msg → σ × WsResult Unit
  pollFlush : σ → σ × Poll (WsResult Unit)

instance instDecEqExcept {ε α : Type} [DecidableEq ε] [DecidableEq α] :
    DecidableEq (Except ε α) := fun x y =>
  match x, y with
  | .error a, .error b =>
      if h : a = b then .isTrue (congrArg Except.error h)
      else .isFalse (fun hh => h (Except.error.inj hh))
  | .error _, .ok _ => .isFalse (fun hh => Except.noConfusion hh)
  | .ok _, .error _ => .isFalse (fun hh => Except.noConfusion hh)
  | .ok a, .ok b =>
      if h : a = b then .isTrue (congrArg Except.ok h)
      else .isFalse (fun hh => h (Except.ok.inj hh))

/-- A scripted channel for concrete scenarios: lists of canned responses
for each face, consumed in order (defaulting to pending or ok when the
script runs out), plus the trace of successfully submitted messages. -/
structure ScriptChan where
  inbound : List (Poll Item)
  readyR : List (Poll (WsResult Unit))
  sendR : List (WsResult Unit)
  flushR : List (Poll (WsResult Unit))
  sent : List Msg
  deriving DecidableEq, Repr

def scriptOps : ChanOps ScriptChan where
  pollNext s :=
    match s.inbound with
    | [] => (s, .pending)
    | r :: rest => ({ s with inbound := rest }, r)
  pollReady s :=
    match s.readyR with
    | [] => (s, .ready (.ok ()))
    | r :: rest => ({ s with readyR := rest }, r)
  startSend s m :=
    match s.sendR with
    | [] => ({ s with sent := s.sent ++ [m] }, .ok ())
    | .ok _ :: rest => ({ s with sendR := rest, sent := s.sent ++ [m] }, .ok ())
    | .error e :: rest => ({ s with sendR := rest }, .error e)
  pollFlush s :=
    match s.flushR with
    | [] => (s, .ready (.ok ()))
    | r :: rest => ({ s with flushR := rest }, r)

/-- A channel whose inbound face never produces data and whose outbound
face always accepts and flushes immediately; the state is the trace of
submitted messages. -/
def idleChan : ChanOps (List Msg) where
  pollNext s := (s, .pending)
  pollReady s := (s, .ready (.ok ()))
  startSend s m := (s ++ [m], .ok ())
  pollFlush s := (s, .ready (.ok ()))

/-- Outcome of one driving poll of a decorator: the poll suspends, or
yields a stream item, or panics (a completed future polled again). -/
inductive DriveOut where
  | pending
  | ready (i : Item)
  | panicked
  deriving DecidableEq, Repr

/-! ## Heartbeat (tokio-tungstenite-ext src heartbeat.rs) -/

/-- Heartbeat internal state: Waiting, Scheduled, Flushing. -/
inductive HState where
  | waiting
  | scheduled
  | flushing
  deriving DecidableEq, Repr

/-- PingFactory capability: produces a keepalive message on demand. -/
structure PingFactory where
  create : Msg
  deriving DecidableEq, Repr

/-- DefaultPingFactory: a Ping message with a fixed payload. -/
def DefaultPingFactory.new (payload : List Nat) : PingFactory :=
  ⟨Msg.ping payload⟩

structure Heartbeat (σ : Type) where
  inner : σ
  interval : Interval
  state : HState
  pingFactory : PingFactory

/-- Heartbeat::new: create the interval and reset it so that it does not
tick immediately; start in Waiting. -/
def Heartbeat.new (inner : σ) (now period : Nat) (f : PingFactory) :
    Heartbeat σ :=
  { inner := inner
    interval := Interval.reset now (Interval.new now period)
    state := .waiting
    pingFactory := f }

/-- One iteration of the poll_next loop of Heartbeat.  First the inner
stream is polled; a ready item is returned at once.  Otherwise the state
machine advances: Waiting waits for the interval tick; Scheduled waits
for sink readiness then submits the factory ping; Flushing waits for the
flush.  The second component is some out when the loop returns to the
caller with out, and none when the loop continues. -/
def Heartbeat.step (ops : ChanOps σ) (now : Nat) (h : Heartbeat σ) :
    Heartbeat σ × Option DriveOut :=
  match ops.pollNext h.inner with
  | (inner1, .ready item) => ({ h with inner := inner1 }, some (.ready item))
  | (inner1, .pending) =>
    let h1 : Heartbeat σ := { h with inner := inner1 }
    match h1.state with
    | .waiting =>
      match Interval.pollTick now h1.interval with
      | (i2, .pending) => ({ h1 with interval := i2 }, some .pending)
      | (i2, .ready _) => ({ h1 with interval := i2, state := .scheduled }, none)
    | .scheduled =>
      match ops.pollReady h1.inner with
      | (inner2, .pending) => ({ h1 with inner := inner2 }, some .pending)
      | (inner2, .ready (.error e)) =>
        ({ h1 with inner := inner2 }, some (.ready (some (.error e))))
      | (inner2, .ready (.ok _)) =>
        match ops.startSend inner2 h1.pingFactory.create with
        | (inner3, .error e) =>
          ({ h1 with inner := inner3 }, some (.ready (some (.error e))))
        | (inner3, .ok _) =>
          ({ h1 with inner := inner3, state := .flushing }, none)
    | .flushing =>
      match ops.pollFlush h1.inner with
      | (inner2, .pending) => ({ h1 with inner := inner2 }, some .pending)
      | (inner2, .ready (.error e)) =>
        ({ h1 with inner := inner2 }, some (.ready (some (.error e))))
      | (inner2, .ready (.ok _)) =>
        ({ h1 with inner := inner2, state := .waiting }, none)

/-- A full driving poll of Heartbeat: iterate the loop body until it
returns, with fuel bounding the number of iterations (the source loop has
no such bound; none in the second component means the fuel ran out, an
artifact of the embedding only). -/
def Heartbeat.pollNextFuel (ops : ChanOps σ) (now : Nat) :
    Nat → Heartbeat σ → Heartbeat σ × Option DriveOut
  | 0, h => (h, none)
  | n + 1, h =>
    match Heartbeat.step ops now h with
    | (h2, some out) => (h2, some out)
    | (h2, none) => Heartbeat.pollNextFuel ops now n h2

/-- Drive the heartbeat with one full poll at each instant of the list. -/
def Heartbeat.pollAtTimes (ops : ChanOps σ) (fuel : Nat) (h : Heartbeat σ) :
    List Nat → Heartbeat σ
  | [] => h
  | t :: ts =>
    Heartbeat.pollAtTimes ops fuel (Heartbeat.pollNextFuel ops t fuel h).1 ts

/-! ## Sink delegation of Heartbeat

The Sink implementation of Heartbeat forwards every outbound operation to
the wrapped channel unchanged. -/

def Heartbeat.sinkPollReady (ops : ChanOps σ) (h : Heartbeat σ) :
    Heartbeat σ × Poll (WsResult Unit) :=
  let r := ops.pollReady h.inner
  ({ h with inner := r.1 }, r.2)

def Heartbeat.sinkStartSend (ops : ChanOps σ) (h : Heartbeat σ) (m : Msg) :
    Heartbeat σ × WsResult Unit :=
  let r := ops.startSend h.inner m
  ({ h with inner := r.1 }, r.2)

def Heartbeat.sinkPollFlush (ops : ChanOps σ) (h : Heartbeat σ) :
    Heartbeat σ × Poll (WsResult Unit) :=
  let r := ops.pollFlush h.inner
  ({ h with inner := r.1 }, r.2)

/-! ## Refreshing (tokio-tungstenite-ext src refreshing.rs)

The Connector capability returns a boxed future resolving to a new
channel (of the same type as the wrapped one) plus the handshake
response.  The future is modelled as a countdown of pending polls
followed by its result; polling it again after it has completed is the
polled-after-completion panic of Rust futures. -/

/-- Handshake response metadata; the source discards it, so it carries no
information here. -/
abbrev HandshakeResponse := Unit

/-- A pending connection attempt: resolves after remaining pending polls
with result; completed records that the future has already resolved. -/
structure ConnFuture (σ : Type) where
  remaining : Nat
  result : WsResult (σ × HandshakeResponse)
  completed : Bool
  deriving DecidableEq, Repr

/-- Outcome of polling a future: pending, ready, or the
polled-after-completion panic. -/
inductive FPoll (α : Type) where
  | pending
  | ready (a : α)
  | panicked
  deriving DecidableEq, Repr

def ConnFuture.poll (f : ConnFuture σ) :
    ConnFuture σ × FPoll (WsResult (σ × HandshakeResponse)) :=
  if f.completed then (f, .panicked)
  else if f.remaining = 0 then ({ f with completed := true }, .ready f.result)
  else ({ f with remaining := f.remaining - 1 }, .pending)

/-- Connector capability: connect starts a fresh connection attempt. -/
structure Connector (σ : Type) where
  connect : Unit → ConnFuture σ

/-- Refreshing internal state: Waiting, Refreshing (holding the pending
connection future), Stitching (holding the new channel and the overlap
sleep). -/
inductive RState (σ : Type) where
  | waiting
  | refreshing (connection : ConnFuture σ)
  | stitching (stream : σ) (sleep : Sleep)
  deriving DecidableEq, Repr

structure Refreshing (σ : Type) where
  inner : σ
  interval : Interval
  connector : Connector σ
  id : String
  state : RState σ

/-- Refreshing::new: create the interval and reset it so that it does not
tick immediately; start in Waiting. -/
def Refreshing.new (inner : σ) (now period : Nat) (c : Connector σ)
    (id : String) : Refreshing σ :=
  { inner := inner
    interval := Interval.reset now (Interval.new now period)
    connector := c
    id := id
    state := .waiting }

/-- One iteration of the poll_next loop of Refreshing.  First the active
(inner) stream is polled; a ready item is returned at once.  Otherwise:
Waiting waits for the tick and then starts a connection attempt;
Refreshing polls the connection future (an error early-returns via the
question-mark operator, leaving the state field holding the now-completed
future); on success it enters Stitching with a one-time-unit sleep;
Stitching waits for the sleep, then swaps the new stream into inner (the
old channel moves into the discarded state value and is dropped) and
returns to Waiting. -/
def Refreshing.step (ops : ChanOps σ) (now : Nat) (r : Refreshing σ) :
    Refreshing σ × Option DriveOut :=
  match ops.pollNext r.inner with
  | (inner1, .ready item) => ({ r with inner := inner1 }, some (.ready item))
  | (inner1, .pending) =>
    let r1 : Refreshing σ := { r with inner := inner1 }
    match r1.state with
    | .waiting =>
      match Interval.pollTick now r1.interval with
      | (i2, .pending) => ({ r1 with interval := i2 }, some .pending)
      | (i2, .ready _) =>
        ({ r1 with interval := i2,
                   state := .refreshing (r1.connector.connect ()) }, none)
    | .refreshing conn =>
      match conn.poll with
      | (conn2, .pending) => ({ r1 with state := .refreshing conn2 }, some .pending)
      | (conn2, .panicked) => ({ r1 with state := .refreshing conn2 }, some .panicked)
      | (conn2, .ready (.error e)) =>
        ({ r1 with state := .refreshing conn2 }, some (.ready (some (.error e))))
      | (_, .ready (.ok (stream, _))) =>
        ({ r1 with state := .stitching stream ⟨now + 1⟩ }, none)
    | .stitching stream sleep =>
      match Sleep.poll now sleep with
      | .pending => ({ r1 with state := .stitching stream sleep }, some .pending)
      | .ready _ => ({ r1 with inner := stream, state := .waiting }, none)

/-- A full driving poll of Refreshing, fuel-bounded like the heartbeat
one. -/
def Refreshing.pollNextFuel (ops : ChanOps σ) (now : Nat) :
    Nat → Refreshing σ → Refreshing σ × Option DriveOut
  | 0, r => (r, none)
  | n + 1, r =>
    match Refreshing.step ops now r with
    | (r2, some out) => (r2, some out)
    | (r2, none) => Refreshing.pollNextFuel ops now n r2

/-! ## Sink delegation of Refreshing

The Sink implementation of Refreshing forwards every outbound operation
to the wrapped (active) channel unchanged, in every state. -/

def Refreshing.sinkPollReady (ops : ChanOps σ) (r : Refreshing σ) :
    Refreshing σ × Poll (WsResult Unit) :=
  let p := ops.pollReady r.inner
  ({ r with inner := p.1 }, p.2)

def Refreshing.sinkStartSend (ops : ChanOps σ) (r : Refreshing σ) (m : Msg) :
    Refreshing σ × WsResult Unit :=
  let p := ops.startSend r.inner m
  ({ r with inner := p.1 }, p.2)

def Refreshing.sinkPollFlush (ops : ChanOps σ) (r : Refreshing σ) :
    Refreshing σ × Poll (WsResult Unit) :=
  let p := ops.pollFlush r.inner
  ({ r with inner := p.1 }, p.2)

/-! ## Further definitions used by the verification -/

/-- The successor state in the heartbeat three-state cycle. -/
def HState.succ : HState → HState
  | .waiting => .scheduled
  | .scheduled => .flushing
  | .flushing => .waiting

/-- The instants one period apart starting one period after t0: the
successive deadlines of an interval created (and reset) at t0. -/
def pollTimes (t0 p : Nat) : Nat → List Nat
  | 0 => []
  | n + 1 => (t0 + p) :: pollTimes (t0 + p) p n

/-- A channel with Nat state that never produces inbound data and whose
outbound face always succeeds, leaving the state untouched; the Nat state
serves as an identity for the channel instance. -/
def quietChan : ChanOps Nat where
  pollNext s := (s, .pending)
  pollReady s := (s, .ready (.ok ()))
  startSend s _ := (s, .ok ())
  pollFlush s := (s, .ready (.ok ()))

/-- A connector whose attempt resolves immediately with the given
error. -/
def errConnector (e : WsError) : Connector Nat :=
  ⟨fun _ => ⟨0, .error e, false⟩⟩

/-- A connector whose attempt resolves immediately with the given new
channel. -/
def okConnector (s : Nat) : Connector Nat :=
  ⟨fun _ => ⟨0, .ok (s, ()), false⟩⟩

/-- A scripted channel whose inbound face has exactly one ready item. -/
def inboundReadyChan (item : Item) : ScriptChan :=
  ⟨[Poll.ready item], [], [], [], []⟩

/-- A scripted channel with no canned responses at all. -/
def emptyScript : ScriptChan :=
  ⟨[], [], [], [], []⟩

/-- A connector over scripted channels whose attempt resolves immediately
with a fresh empty scripted channel. -/
def scriptConnector : Connector ScriptChan :=
  ⟨fun _ => ⟨0, .ok (emptyScript, ()), false⟩⟩

/-! ## Helper lemmas about iterators -/

theorem Iter.stateN_add (it : Iter σ α) (s : σ) (m n : Nat) :
    it.stateN s (m + n) = it.stateN (it.stateN s m) n := by
  induction m generalizing s with
  | zero => rw [Nat.zero_add]; rfl
  | succ m ih =>
    have h1 : m + 1 + n = (m + n) + 1 := by omega
    calc it.stateN s (m + 1 + n)
        = it.stateN ((it.next s).1) (m + n) := by rw [h1]; rfl
      _ = it.stateN (it.stateN ((it.next s).1) m) n := ih ((it.next s).1)
      _ = it.stateN (it.stateN s (m + 1)) n := rfl

theorem Iter.stateN_succ_back (it : Iter σ α) (s : σ) (n : Nat) :
    it.stateN s (n + 1) = (it.next (it.stateN s n)).1 := by
  rw [Iter.stateN_add it s n 1]; rfl

theorem listIter_outN {α : Type} (l : List α) (i : Nat) :
    Iter.outN (listIter α) l i = l.get? i := by
  induction i generalizing l with
  | zero => cases l <;> rfl
  | succ i ih =>
    cases l with
    | nil =>
      rw [Iter.outN_succ]
      show Iter.outN (listIter α) [] i = none
      rw [ih]; rfl
    | cons a rest =>
      rw [Iter.outN_succ]
      show Iter.outN (listIter α) rest i = rest.get? i
      exact ih rest

/-! ## Helper lemmas about Exponential -/

theorem exp_next_max : expIter.next ⟨u64Max⟩ = (⟨u64Max⟩, none) := by
  show Exponential.next ⟨u64Max⟩ = (⟨u64Max⟩, none)
  rw [Exponential.next]
  norm_num [u64Max]

theorem exp_stateN (n : Nat) (hn : n ≤ 64) :
    Iter.stateN expIter exponential n =
      ⟨if n ≤ 63 then 2 ^ n else u64Max⟩ := by
  induction n with
  | zero => rfl
  | succ n ih =>
    have hn63 : n ≤ 63 := by omega
    rw [Iter.stateN_succ_back, ih (by omega), if_pos hn63]
    have hle : 2 ^ n ≤ 2 ^ 63 := Nat.pow_le_pow_right (by norm_num) hn63
    have hnot : ¬ (2 ^ n > 9223372036854775808) := by
      have h93 : (9223372036854775808 : Nat) = 2 ^ 63 := by norm_num
      omega
    have hstep : Exponential.next ⟨2 ^ n⟩ =
        (⟨saturatingMul (2 ^ n) 2⟩, some (2 ^ n)) := by
      rw [Exponential.next, if_neg hnot]
    rw [show expIter.next = Exponential.next from rfl, hstep]
    show (⟨saturatingMul (2 ^ n) 2⟩ : Exponential) = _
    by_cases h62 : n ≤ 62
    · have h1 : n + 1 ≤ 63 := by omega
      have h2 : 2 ^ n * 2 = 2 ^ (n + 1) := by rw [Nat.pow_succ]
      have h3 : 2 ^ (n + 1) ≤ u64Max := by
        have ha : 2 ^ (n + 1) ≤ 2 ^ 63 := Nat.pow_le_pow_right (by norm_num) h1
        have hb : (2 : Nat) ^ 63 ≤ u64Max := by norm_num [u64Max]
        omega
      have h4 : saturatingMul (2 ^ n) 2 = 2 ^ (n + 1) := by
        rw [saturatingMul, h2, Nat.min_eq_left h3]
      rw [h4, if_pos h1]
    · have h63 : n = 63 := by omega
      subst h63
      have h2 : ¬ (63 + 1 ≤ 63) := by omega
      rw [if_neg h2]
      norm_num [saturatingMul, u64Max]

theorem exp_state_max_fixed (k : Nat) :
    Iter.stateN expIter ⟨u64Max⟩ k = ⟨u64Max⟩ := by
  induction k with
  | zero => rfl
  | succ k ih => rw [Iter.stateN_succ_back, ih, exp_next_max]

/-! ## Helper lemmas about Saturating -/

theorem sat_next_eq (it : Iter σ α) (a : σ) (b : Option α) :
    (satIter it).next ⟨a, b⟩ =
      match it.next a with
      | (inner2, some item) => (⟨inner2, some item⟩, some item)
      | (inner2, none) => (⟨inner2, b⟩, b) := rfl

theorem sat_stateN (it : Iter σ α) (s : σ) (vs : List α)
    (h : ∀ i, Iter.outN it s i = vs.get? i) (n : Nat) :
    Iter.stateN (satIter it) (Saturating.new s) n =
      ⟨Iter.stateN it s n, (vs.take n).getLast?⟩ := by
  induction n with
  | zero => rfl
  | succ n ih =>
    have hout := h n
    rw [Iter.outN] at hout
    cases hnext : it.next (Iter.stateN it s n) with
    | mk inner2 out =>
      rw [hnext] at hout
      simp only at hout
      rw [Iter.stateN_succ_back, ih, Iter.stateN_succ_back, hnext,
        sat_next_eq, hnext]
      cases out with
      | some v =>
        have hvs : vs.get? n = some v := hout.symm
        have htake : vs.take (n + 1) = vs.take n ++ [v] := by
          rw [List.take_succ, ← List.get?_eq_getElem? vs n, hvs]; rfl
        simp [htake]
      | none =>
        have hvs : vs.get? n = none := hout.symm
        have hlen : vs.length ≤ n := by
          rw [List.get?_eq_getElem? vs n] at hvs
          exact List.getElem?_eq_none_iff.mp hvs
        have htake : vs.take (n + 1) = vs.take n := by
          rw [List.take_of_length_le hlen, List.take_of_length_le (by omega)]
        simp [htake]

theorem sat_outN (it : Iter σ α) (s : σ) (vs : List α)
    (h : ∀ i, Iter.outN it s i = vs.get? i) (n : Nat) :
    Iter.outN (satIter it) (Saturating.new s) n =
      if n < vs.length then vs.get? n else vs.getLast? := by
  have hout := h n
  rw [Iter.outN] at hout
  rw [Iter.outN, sat_stateN it s vs h n]
  cases hnext : it.next (Iter.stateN it s n) with
  | mk inner2 out =>
    rw [hnext] at hout
    simp only at hout
    rw [sat_next_eq, hnext]
    cases out with
    | some v =>
      have hvs : vs.get? n = some v := hout.symm
      have hn : n < vs.length := by
        by_contra hc
        rw [List.get?_eq_getElem? vs n, List.getElem?_eq_none_iff.mpr (by omega)] at hvs
        exact Option.noConfusion hvs
      have hget : vs[n]? = some v := by
        rw [← List.get?_eq_getElem? vs n]; exact hvs
      have hgeteq : vs[n]? = some (vs[n]) := List.getElem?_eq_getElem hn
      have hv : v = vs[n] := (Option.some.inj (hgeteq.symm.trans hget)).symm
      simp [hvs, hn, hv]
    | none =>
      have hvs : vs.get? n = none := hout.symm
      have hn : vs.length ≤ n := by
        rw [List.get?_eq_getElem? vs n] at hvs
        exact List.getElem?_eq_none_iff.mp hvs
      have htake : vs.take n = vs := List.take_of_length_le hn
      simp [hvs, htake, Nat.not_lt.mpr hn]

/-! ## Helper lemmas about Heartbeat -/

theorem hb_cycle (s : List Msg) (p d now : Nat) (f : PingFactory)
    (h1 : d ≤ now) (h2 : now < d + p) :
    Heartbeat.pollNextFuel idleChan now 4 ⟨s, ⟨p, d⟩, .waiting, f⟩ =
      (⟨s ++ [f.create], ⟨p, d + p⟩, .waiting, f⟩, some .pending) := by
  have hnot : ¬ (d + p ≤ now) := Nat.not_le.mpr h2
  simp [Heartbeat.pollNextFuel, Heartbeat.step, idleChan, Interval.pollTick,
    ge_iff_le, h1, hnot]

theorem hb_run (f : PingFactory) (p : Nat) (hp : 1 ≤ p) :
    ∀ (n : Nat) (s : List Msg) (d : Nat),
    Heartbeat.pollAtTimes idleChan 4 ⟨s, ⟨p, d + p⟩, .waiting, f⟩
        (pollTimes d p n) =
      ⟨s ++ List.replicate n f.create, ⟨p, d + (n + 1) * p⟩, .waiting, f⟩ := by
  intro n
  induction n with
  | zero =>
    intro s d
    simp [pollTimes, Heartbeat.pollAtTimes]
  | succ n ih =>
    intro s d
    rw [pollTimes]
    rw [Heartbeat.pollAtTimes]
    rw [hb_cycle s p (d + p) (d + p) f (le_refl _) (by omega)]
    rw [ih (s ++ [f.create]) (d + p)]
    have hl : s ++ [f.create] ++ List.replicate n f.create =
        s ++ List.replicate (n + 1) f.create := by
      rw [List.append_assoc]
      rw [show [f.create] ++ List.replicate n f.create =
        List.replicate (n + 1) f.create from rfl]
    have hd : d + p + (n + 1) * p = d + (n + 1 + 1) * p := by ring
    rw [hl, hd]

/-! ## Claim C2 -/

/-- C2 counterexample: the claim states that the 63rd and every
subsequent call to ExponentialSequence next returns the saturation
ceiling and never reports exhaustion; in fact the 64th call (0-indexed)
returns none, so the sequence terminates. -/
theorem claim_C2_counterexample :
    Iter.outN expIter exponential 64 = none := by
  rw [Iter.outN, exp_stateN 64 (by norm_num), if_neg (by norm_num),
    exp_next_max]

/-- C2 (amended): for every n up to 63 the nth call to
ExponentialSequence next returns 2 to the n (in particular for all
n below 63 as claimed); the 64th and every subsequent call returns none:
the iterator terminates after yielding 2 to the 63, rather than
repeating a ceiling value forever. -/
theorem claim_C2_theorem (n : Nat) :
    (n ≤ 63 → Iter.outN expIter exponential n = some (2 ^ n)) ∧
    (64 ≤ n → Iter.outN expIter exponential n = none) := by
  constructor
  · intro h
    rw [Iter.outN, exp_stateN n (by omega), if_pos h]
    show (Exponential.next ⟨2 ^ n⟩).2 = some (2 ^ n)
    have hle : 2 ^ n ≤ 2 ^ 63 := Nat.pow_le_pow_right (by norm_num) h
    have hnot : ¬ (2 ^ n > 9223372036854775808) := by
      have h93 : (9223372036854775808 : Nat) = 2 ^ 63 := by norm_num
      omega
    rw [Exponential.next, if_neg hnot]
  · intro h
    have hn : n = 64 + (n - 64) := by omega
    rw [Iter.outN, hn, Iter.stateN_add, exp_stateN 64 (by norm_num),
      if_neg (by norm_num), exp_state_max_fixed, exp_next_max]

/-- C2 witness: the 63rd call returns 2 to the 63 and the 64th returns
none. -/
theorem claim_C2_witness :
    Iter.outN expIter exponential 63 = some (2 ^ 63) ∧
    Iter.outN expIter exponential 64 = none :=
  ⟨(claim_C2_theorem 63).1 (by norm_num), (claim_C2_theorem 64).2 (by norm_num)⟩

/-! ## Claim C7 -/

/-- C7: for every wrapped iterator that behaves as a finite sequence with
value list vs of length k at least 1 (it yields the k values of vs in
order, then none forever), SaturatingSequence yields the k values of vs
unchanged and in order, and every call from the kth on returns the kth
value (the last element of vs) again, forever. -/
theorem claim_C7_theorem {σ α : Type} (it : Iter σ α) (s : σ) (vs : List α)
    (_hk : 1 ≤ vs.length)
    (hfin : ∀ i, Iter.outN it s i = vs.get? i) :
    (∀ i, i < vs.length →
      Iter.outN (satIter it) (Saturating.new s) i = vs.get? i) ∧
    (∀ i, vs.length ≤ i →
      Iter.outN (satIter it) (Saturating.new s) i = vs.get? (vs.length - 1)) := by
  constructor
  · intro i hi
    rw [sat_outN it s vs hfin i, if_pos hi]
  · intro i hi
    rw [sat_outN it s vs hfin i, if_neg (Nat.not_lt.mpr hi),
      List.getLast?_eq_getElem?, List.get?_eq_getElem?]

/-- C7 witness: wrapping the two-element sequence 10, 20: the second call
returns 20, and so does the sixth. -/
theorem claim_C7_witness :
    Iter.outN (satIter (listIter Nat)) (Saturating.new [10, 20]) 1 = some 20 ∧
    Iter.outN (satIter (listIter Nat)) (Saturating.new [10, 20]) 5 = some 20 := by
  have h := claim_C7_theorem (listIter Nat) [10, 20] [10, 20] (by norm_num)
    (fun i => listIter_outN [10, 20] i)
  refine ⟨?_, ?_⟩
  · have h1 := h.1 1 (by norm_num)
    simpa using h1
  · have h2 := h.2 5 (by norm_num)
    simpa using h2

/-! ## Claim C10 -/

/-- C10: SaturatingSequence wrapping an exhausted (empty) sequence
returns none on every call: the remembered last value starts out absent
and is never set, so no value is fabricated. -/
theorem claim_C10_theorem {σ α : Type} (it : Iter σ α) (s : σ)
    (hempty : ∀ i, Iter.outN it s i = none) :
    ∀ n, Iter.outN (satIter it) (Saturating.new s) n = none := by
  intro n
  have hfin : ∀ i, Iter.outN it s i = ([] : List α).get? i := by
    intro i
    rw [hempty i]
    simp
  have h := sat_outN it s [] hfin n
  simpa using h

/-- C10 witness: wrapping the empty sequence, the fourth call still
returns none. -/
theorem claim_C10_witness :
    Iter.outN (satIter (listIter Nat)) (Saturating.new ([] : List Nat)) 3 = none :=
  claim_C10_theorem (listIter Nat) []
    (fun i => by simpa using listIter_outN ([] : List Nat) i) 3

/-! ## Claim C6 -/

/-- C6: on each call to ResettableSequence next with current clock value
now: if now has reached the stored deadline, both the produced item and
the new inner state come from the pristine initial copy of the wrapped
sequence (so the production is the very first value of the wrapped
sequence);
in every case the new deadline is now plus the reset delay, and the
pristine copy is preserved; and construction stores the wrapped sequence
itself as the pristine copy with deadline construction-time plus
delay. -/
theorem claim_C6_theorem {σ α : Type} (it : Iter σ α) (r : Reset σ) (now : Nat) :
    (now ≥ r.resetAt →
      (Reset.next it now r).2 = (it.next r.initialInner).2 ∧
      (Reset.next it now r).1.inner = (it.next r.initialInner).1) ∧
    (Reset.next it now r).1.resetAt = now + r.resetDelay ∧
    (Reset.next it now r).1.initialInner = r.initialInner ∧
    (∀ (s : σ) (t D : Nat), (Reset.new s t D).initialInner = s ∧
      (Reset.new s t D).inner = s ∧ (Reset.new s t D).resetAt = t + D) := by
  refine ⟨fun h => ⟨?_, ?_⟩, ?_, ?_, fun s t D => ⟨rfl, rfl, rfl⟩⟩
  · simp [Reset.next, h]
  · simp [Reset.next, h]
  · simp [Reset.next]
  · simp [Reset.next]

/-- C6 witness: starting from the sequence 5, 6, 7 at time 0 with reset
delay 2, a call at time 5 (past the deadline 2) produces 5, the very
first value, and sets the deadline to 7. -/
theorem claim_C6_witness :
    (Reset.next (listIter Nat) 5 (Reset.new [5, 6, 7] 0 2)).2 = some 5 ∧
    (Reset.next (listIter Nat) 5 (Reset.new [5, 6, 7] 0 2)).1.resetAt = 7 := by
  have h := claim_C6_theorem (listIter Nat) (Reset.new [5, 6, 7] 0 2) 5
  refine ⟨?_, ?_⟩
  · have h1 := (h.1 (by decide)).1
    simpa using h1
  · have h2 := h.2.1
    simpa using h2

/-! ## Claim C8 -/

/-- C8: both decorator constructors reset the freshly created interval,
so the stored deadline is one full period after creation; polling the
tick strictly before that deadline is pending and at or after it is
ready; by contrast an un-reset interval would tick immediately at
creation time. -/
theorem claim_C8_theorem {σ τ : Type} (ch1 : σ) (ch2 : τ) (now period : Nat)
    (f : PingFactory) (c : Connector τ) (cid : String) :
    (Heartbeat.new ch1 now period f).interval = ⟨period, now + period⟩ ∧
    (Refreshing.new ch2 now period c cid).interval = ⟨period, now + period⟩ ∧
    (∀ t, t < now + period →
      (Interval.pollTick t ⟨period, now + period⟩).2 = Poll.pending) ∧
    (∀ t, now + period ≤ t →
      (Interval.pollTick t ⟨period, now + period⟩).2 = Poll.ready ()) ∧
    (Interval.pollTick now (Interval.new now period)).2 = Poll.ready () := by
  refine ⟨rfl, rfl, fun t ht => ?_, fun t ht => ?_, ?_⟩
  · have hn : ¬ (now + period ≤ t) := Nat.not_le.mpr ht
    simp [Interval.pollTick, ge_iff_le, hn]
  · simp [Interval.pollTick, ge_iff_le, ht]
  · simp [Interval.pollTick, Interval.new]

/-- C8 witness: created at time 0 with period 5, the deadline is 5; a
tick poll at 4 is pending and at 5 is ready. -/
theorem claim_C8_witness :
    (Heartbeat.new ([] : List Msg) 0 5 (DefaultPingFactory.new [])).interval = ⟨5, 5⟩ ∧
    (Interval.pollTick 4 ⟨5, 5⟩).2 = Poll.pending ∧
    (Interval.pollTick 5 ⟨5, 5⟩).2 = Poll.ready () := by
  have h := claim_C8_theorem ([] : List Msg) (0 : Nat) 0 5
    (DefaultPingFactory.new []) (okConnector 7) "ws"
  exact ⟨h.1, h.2.2.1 4 (by norm_num), h.2.2.2.1 5 (by norm_num)⟩

/-! ## Claim C3 -/

/-- C3: in every internal state of either decorator, if the active
wrapped channel has an inbound item ready, the driving step returns that
item at once and performs no internal transition: the interval, the
internal state and the other fields are unchanged (only the channel state
advances by the one inbound poll). -/
theorem claim_C3_theorem {σ τ : Type} (ops : ChanOps σ) (now : Nat)
    (h : Heartbeat σ) (i1 : σ) (item : Item)
    (ops2 : ChanOps τ) (now2 : Nat) (r : Refreshing τ) (i2 : τ) (item2 : Item) :
    (ops.pollNext h.inner = (i1, .ready item) →
      Heartbeat.step ops now h = ({ h with inner := i1 }, some (.ready item))) ∧
    (ops2.pollNext r.inner = (i2, .ready item2) →
      Refreshing.step ops2 now2 r = ({ r with inner := i2 }, some (.ready item2))) := by
  constructor
  · intro hp
    simp [Heartbeat.step, hp]
  · intro hp
    simp [Refreshing.step, hp]

/-- C3 witness: a heartbeat in Waiting and a refreshing decorator in
Waiting, each over a scripted channel with one ready inbound Close
message, both yield that message from the driving step. -/
theorem claim_C3_witness :
    (Heartbeat.step scriptOps 0
      ⟨inboundReadyChan (some (.ok Msg.close)), ⟨5, 5⟩, .waiting,
        DefaultPingFactory.new []⟩).2 = some (.ready (some (.ok Msg.close))) ∧
    (Refreshing.step scriptOps 0
      ⟨inboundReadyChan (some (.ok Msg.close)), ⟨5, 5⟩, scriptConnector, "ws",
        .waiting⟩).2 = some (.ready (some (.ok Msg.close))) := by
  have h := claim_C3_theorem scriptOps 0
    ⟨inboundReadyChan (some (.ok Msg.close)), ⟨5, 5⟩, .waiting,
      DefaultPingFactory.new []⟩ emptyScript (some (.ok Msg.close))
    scriptOps 0
    ⟨inboundReadyChan (some (.ok Msg.close)), ⟨5, 5⟩, scriptConnector, "ws",
      .waiting⟩ emptyScript (some (.ok Msg.close))
  refine ⟨?_, ?_⟩
  · rw [h.1 rfl]
  · rw [h.2 rfl]

/-! ## Claim C4 -/

/-- C4: the heartbeat state machine only ever stays in its state (when a
driving step yields to the caller) or moves to the successor state in the
cycle Waiting, Scheduled, Flushing, Waiting (continuing the loop); and
against a channel whose inbound face never produces data, driving the
heartbeat once per interval deadline submits-and-flushes exactly one
factory ping per interval and writes nothing else to the outbound side:
after n intervals the outbound trace is exactly n pings and the machine
is back in Waiting with the deadline advanced n periods. -/
theorem claim_C4_theorem :
    (∀ {σ : Type} (ops : ChanOps σ) (now : Nat) (h : Heartbeat σ),
      (Heartbeat.step ops now h).1.state = h.state ∨
      ((Heartbeat.step ops now h).2 = none ∧
        (Heartbeat.step ops now h).1.state = h.state.succ)) ∧
    (∀ (n : Nat) (s : List Msg) (t0 p : Nat) (f : PingFactory), 1 ≤ p →
      Heartbeat.pollAtTimes idleChan 4 (Heartbeat.new s t0 p f)
          (pollTimes t0 p n) =
        ⟨s ++ List.replicate n f.create, ⟨p, t0 + (n + 1) * p⟩, .waiting, f⟩) := by
  constructor
  · intro σ ops now h
    rcases hpn : ops.pollNext h.inner with ⟨i1, pn⟩
    cases pn with
    | ready item =>
      left
      simp [Heartbeat.step, hpn]
    | pending =>
      cases hst : h.state with
      | waiting =>
        rcases htick : Interval.pollTick now h.interval with ⟨iv2, tk⟩
        cases tk with
        | pending =>
          left
          simp [Heartbeat.step, hpn, hst, htick]
        | ready u =>
          right
          refine ⟨?_, ?_⟩ <;> simp [Heartbeat.step, hpn, hst, htick, HState.succ]
      | scheduled =>
        rcases hr : ops.pollReady i1 with ⟨i2, pr⟩
        cases pr with
        | pending =>
          left
          simp [Heartbeat.step, hpn, hst, hr]
        | ready res =>
          cases res with
          | error e =>
            left
            simp [Heartbeat.step, hpn, hst, hr]
          | ok u =>
            rcases hs : ops.startSend i2 h.pingFactory.create with ⟨i3, sr⟩
            cases sr with
            | error e =>
              left
              simp [Heartbeat.step, hpn, hst, hr, hs]
            | ok u2 =>
              right
              refine ⟨?_, ?_⟩ <;> simp [Heartbeat.step, hpn, hst, hr, hs, HState.succ]
      | flushing =>
        rcases hf : ops.pollFlush i1 with ⟨i2, fr⟩
        cases fr with
        | pending =>
          left
          simp [Heartbeat.step, hpn, hst, hf]
        | ready res =>
          cases res with
          | error e =>
            left
            simp [Heartbeat.step, hpn, hst, hf]
          | ok u =>
            right
            refine ⟨?_, ?_⟩ <;> simp [Heartbeat.step, hpn, hst, hf, HState.succ]
  · intro n s t0 p f hp
    have h := hb_run f p hp n s t0
    exact h

/-- C4 witness: period 5 starting at time 0, three polls at the three
successive deadlines 5, 10, 15 submit exactly three pings and leave the
machine Waiting with deadline 20. -/
theorem claim_C4_witness :
    Heartbeat.pollAtTimes idleChan 4
        (Heartbeat.new [] 0 5 (DefaultPingFactory.new [2])) (pollTimes 0 5 3) =
      ⟨List.replicate 3 (Msg.ping [2]), ⟨5, 20⟩, .waiting,
        DefaultPingFactory.new [2]⟩ := by
  have h := claim_C4_theorem.2 3 [] 0 5 (DefaultPingFactory.new [2]) (by norm_num)
  simpa [DefaultPingFactory.new] using h

/-! ## Claim C9 -/

/-- C9: in Scheduled, an error from the outbound readiness check or from
the ping submission, and in Flushing, an error from the flush, each make
the driving step return that same error to the caller at once (the
driving poll ends with the error for any fuel, so no retry happens within
the poll); the channel state reflects exactly the operations performed up
to the failure and no further outbound operation is attempted. -/
theorem claim_C9_theorem {σ : Type} (ops : ChanOps σ) (now : Nat)
    (h : Heartbeat σ) (i1 i2 i3 : σ) (e : WsError) :
    (h.state = .scheduled → ops.pollNext h.inner = (i1, .pending) →
      ops.pollReady i1 = (i2, .ready (.error e)) →
      Heartbeat.step ops now h =
        ({ h with inner := i2 }, some (.ready (some (.error e)))) ∧
      (∀ fuel, Heartbeat.pollNextFuel ops now (fuel + 1) h =
        ({ h with inner := i2 }, some (.ready (some (.error e)))))) ∧
    (h.state = .scheduled → ops.pollNext h.inner = (i1, .pending) →
      ops.pollReady i1 = (i2, .ready (.ok ())) →
      ops.startSend i2 h.pingFactory.create = (i3, .error e) →
      Heartbeat.step ops now h =
        ({ h with inner := i3 }, some (.ready (some (.error e))))) ∧
    (h.state = .flushing → ops.pollNext h.inner = (i1, .pending) →
      ops.pollFlush i1 = (i2, .ready (.error e)) →
      Heartbeat.step ops now h =
        ({ h with inner := i2 }, some (.ready (some (.error e))))) := by
  refine ⟨fun hst hpn hr => ⟨?_, ?_⟩, fun hst hpn hr hsnd => ?_, fun hst hpn hf => ?_⟩
  · simp [Heartbeat.step, hpn, hst, hr]
  · intro fuel
    simp [Heartbeat.pollNextFuel, Heartbeat.step, hpn, hst, hr]
  · simp [Heartbeat.step, hpn, hst, hr, hsnd]
  · simp [Heartbeat.step, hpn, hst, hf]

/-- C9 witness: a scripted channel whose readiness check fails with error
code 3 makes the driving step of a Scheduled heartbeat yield that error. -/
theorem claim_C9_witness :
    (Heartbeat.step scriptOps 0
      ⟨⟨[], [.ready (.error ⟨3⟩)], [], [], []⟩, ⟨5, 5⟩, .scheduled,
        DefaultPingFactory.new []⟩).2 = some (.ready (some (.error ⟨3⟩))) := by
  have h := (claim_C9_theorem scriptOps 0
    ⟨⟨[], [.ready (.error ⟨3⟩)], [], [], []⟩, ⟨5, 5⟩, .scheduled,
      DefaultPingFactory.new []⟩
    ⟨[], [.ready (.error ⟨3⟩)], [], [], []⟩ emptyScript emptyScript
    ⟨3⟩).1 rfl rfl rfl
  rw [h.1]

/-! ## Claim C5 -/

/-- C5: while the refreshing decorator is Stitching and the overlap sleep
has not elapsed, inbound polls are served from the old (inner) channel
and the held new channel is untouched (the state, including the pending
new stream, is preserved); a ready inbound item still comes from the old
channel; the outbound face delegates to the active (old) channel in every
state; and once the overlap deadline is reached the new channel is
swapped in as the active channel, the old channel is no longer held
anywhere in the decorator, and the state returns to Waiting. -/
theorem claim_C5_theorem {σ : Type} (ops : ChanOps σ) (now : Nat)
    (r : Refreshing σ) (st : σ) (sl : Sleep) (i1 : σ) (item : Item) (m : Msg) :
    (r.state = .stitching st sl → now < sl.deadline →
      ops.pollNext r.inner = (i1, .pending) →
      Refreshing.step ops now r = ({ r with inner := i1 }, some .pending)) ∧
    (r.state = .stitching st sl →
      ops.pollNext r.inner = (i1, .ready item) →
      Refreshing.step ops now r = ({ r with inner := i1 }, some (.ready item))) ∧
    (Refreshing.sinkStartSend ops r m =
      ({ r with inner := (ops.startSend r.inner m).1 }, (ops.startSend r.inner m).2)) ∧
    (r.state = .stitching st sl → sl.deadline ≤ now →
      ops.pollNext r.inner = (i1, .pending) →
      Refreshing.step ops now r =
        ({ r with inner := st, state := .waiting }, none)) := by
  refine ⟨fun hst hnow hpn => ?_, fun hst hpn => ?_, rfl, fun hst hnow hpn => ?_⟩
  · have hn : ¬ (now ≥ sl.deadline) := Nat.not_le.mpr hnow
    simp [Refreshing.step, hpn, hst, Sleep.poll, hn]
  · simp [Refreshing.step, hpn, hst]
  · simp [Refreshing.step, hpn, hst, Sleep.poll, ge_iff_le, hnow]

/-- C5 witness: a refreshing decorator over channel 1 stitching toward
new channel 9 with overlap deadline 6: polled at 5 it stays stitching
with the old channel active, and polled at 6 it swaps to channel 9 and
returns to Waiting. -/
theorem claim_C5_witness :
    Refreshing.step quietChan 5
        ⟨1, ⟨5, 10⟩, okConnector 9, "ws", .stitching 9 ⟨6⟩⟩ =
      (⟨1, ⟨5, 10⟩, okConnector 9, "ws", .stitching 9 ⟨6⟩⟩, some .pending) ∧
    Refreshing.step quietChan 6
        ⟨1, ⟨5, 10⟩, okConnector 9, "ws", .stitching 9 ⟨6⟩⟩ =
      (⟨9, ⟨5, 10⟩, okConnector 9, "ws", .waiting⟩, none) := by
  have h5 := claim_C5_theorem quietChan 5
    ⟨1, ⟨5, 10⟩, okConnector 9, "ws", .stitching 9 ⟨6⟩⟩ 9 ⟨6⟩ 1
    (some (.ok Msg.close)) Msg.close
  have h6 := claim_C5_theorem quietChan 6
    ⟨1, ⟨5, 10⟩, okConnector 9, "ws", .stitching 9 ⟨6⟩⟩ 9 ⟨6⟩ 1
    (some (.ok Msg.close)) Msg.close
  exact ⟨h5.1 rfl (by norm_num) rfl, h6.2.2.2 rfl (by norm_num) rfl⟩

/-! ## Claim C1 -/

/-- C1 evaluation at the failing input: a refreshing decorator over
channel 1 (period 5, created at time 0) with a connector whose attempt
resolves with error code 7.  The driving poll at time 5 surfaces the
error to the caller and leaves the old channel active, as claimed; but
the state does not return to Waiting: it remains Refreshing, holding the
already-completed connection future, and the next driving poll re-polls
that completed future, the polled-after-completion panic, so no new
connection attempt is started on the next interval tick. -/
theorem claim_C1_theorem :
    (Refreshing.pollNextFuel quietChan 5 4
        (Refreshing.new 1 0 5 (errConnector ⟨7⟩) "ws")).2 =
      some (.ready (some (.error ⟨7⟩))) ∧
    (Refreshing.pollNextFuel quietChan 5 4
        (Refreshing.new 1 0 5 (errConnector ⟨7⟩) "ws")).1.inner = 1 ∧
    (Refreshing.pollNextFuel quietChan 5 4
        (Refreshing.new 1 0 5 (errConnector ⟨7⟩) "ws")).1.state =
      .refreshing ⟨0, .error ⟨7⟩, true⟩ ∧
    (Refreshing.pollNextFuel quietChan 10 4
        (Refreshing.pollNextFuel quietChan 5 4
          (Refreshing.new 1 0 5 (errConnector ⟨7⟩) "ws")).1).2 =
      some .panicked := by
  refine ⟨rfl, rfl, rfl, rfl⟩

end RustExt
